import Mathlib

/-!
Formal model of the voidkey CLI (a Go command-line client that mints
short-lived cloud credentials from a broker over HTTP).

The Go sources are embedded shallowly:
pure helpers become Lean functions, the process environment becomes a
function from variable names to values (Getenv returns the empty string
for unset variables), the broker transport becomes an explicit
parameter returning either a transport error or a status/body pair, and
each Fprintf call to stdout or stderr becomes one element of a list of
emitted lines (the trailing newline of each call is left implicit).
-/

namespace Voidkey

/-- JSON value tree, used to model the encoding/json package where the
repository marshals or unmarshals structured data. -/
inductive Json where
  | str (s : String)
  | num (n : Int)
  | bool (b : Bool)
  | null
  | arr (xs : List Json)
  | obj (ps : List (String × Json))
deriving Repr, Inhabited

/-- CloudCredentials record from cmd/mint.go. All fields are JSON
strings; SessionToken carries the omitempty tag. -/
structure CloudCredentials where
  AccessKey : String
  SecretKey : String
  SessionToken : String
  ExpiresAt : String
deriving Repr, DecidableEq

/-- IdpProvider record from cmd/client.go. -/
structure IdpProvider where
  Name : String
  IsDefault : Bool
deriving Repr, DecidableEq

/-- Modelled from the spec: the KeyCredentialResponse record is not
declared under src (only its uses in cmd/mint.go and the tests are).
Spec section 3 gives its shape: credentials is a mapping from
environment-variable name to value, expiresAt a string, metadata an
optional mapping from string to arbitrary JSON. Go maps are modelled as
association lists. -/
structure KeyCredentialResponse where
  Credentials : List (String × String)
  ExpiresAt : String
  Metadata : List (String × Json)
deriving Repr, Inhabited

/-- Config record from cmd/config.go. -/
structure Config where
  Server : String
  IdpName : String
  TokenEnv : String
deriving Repr, DecidableEq

/-- Process environment: Getenv semantics, unset variables read as the
empty string. -/
def Env : Type := String → String

/-! ### Character-level JSON machinery

Models the escaping performed by encoding/json (with its default HTML
escaping) and the string scanning performed by its decoder. -/

/-- Lowercase hexadecimal digit for a value below 16, as emitted by the
Go JSON encoder. -/
def hexDigit (n : Nat) : Char :=
  if n < 10 then Char.ofNat (48 + n) else Char.ofNat (87 + n)

/-- Value of one hexadecimal digit character, accepting both cases. -/
def hexVal (c : Char) : Option Nat :=
  if 48 ≤ c.toNat ∧ c.toNat ≤ 57 then some (c.toNat - 48)
  else if 97 ≤ c.toNat ∧ c.toNat ≤ 102 then some (c.toNat - 87)
  else if 65 ≤ c.toNat ∧ c.toNat ≤ 70 then some (c.toNat - 55)
  else none

/-- Escaping of one character by the Go JSON encoder: quote and
backslash get two-character escapes, newline, carriage return and tab
get their short escapes, the remaining control characters together with
the HTML characters and the Unicode line separators get a four-digit
escape, and everything else is emitted verbatim. -/
def escChar (c : Char) : List Char :=
  if c = '"' then ['\\', '"']
  else if c = '\\' then ['\\', '\\']
  else if c = '\n' then ['\\', 'n']
  else if c = '\r' then ['\\', 'r']
  else if c = '\t' then ['\\', 't']
  else if c.toNat < 32 ∨ c = '<' ∨ c = '>' ∨ c = '&' ∨
      c.toNat = 8232 ∨ c.toNat = 8233 then
    ['\\', 'u', hexDigit (c.toNat / 4096 % 16), hexDigit (c.toNat / 256 % 16),
      hexDigit (c.toNat / 16 % 16), hexDigit (c.toNat % 16)]
  else [c]

/-- Escaping of a whole string body. -/
def escList : List Char → List Char
  | [] => []
  | c :: cs => escChar c ++ escList cs

/-- Decoding of one short escape character by the JSON decoder. -/
def unescChar (e : Char) : Option Char :=
  if e = '"' then some '"'
  else if e = '\\' then some '\\'
  else if e = '/' then some '/'
  else if e = 'n' then some '\n'
  else if e = 'r' then some '\r'
  else if e = 't' then some '\t'
  else if e = 'b' then some (Char.ofNat 8)
  else if e = 'f' then some (Char.ofNat 12)
  else none

/-- Scanning of a JSON string body: the input is positioned just after
the opening quote; the result is the decoded content together with the
remainder of the input after the closing quote. -/
def readStr : List Char → Option (List Char × List Char)
  | [] => none
  | c :: l =>
    if c = '"' then some ([], l)
    else if c = '\\' then
      match l with
      | [] => none
      | e :: l2 =>
        if e = 'u' then
          match l2 with
          | a :: b :: c2 :: d :: l3 =>
            match hexVal a, hexVal b, hexVal c2, hexVal d with
            | some va, some vb, some vc, some vd =>
              match readStr l3 with
              | some (s, r) =>
                some (Char.ofNat (((va * 16 + vb) * 16 + vc) * 16 + vd) :: s, r)
              | none => none
            | _, _, _, _ => none
          | _ => none
        else
          match unescChar e with
          | some u =>
            match readStr l2 with
            | some (s, r) => some (u :: s, r)
            | none => none
          | none => none
    else
      match readStr l with
      | some (s, r) => some (c :: s, r)
      | none => none

/-- Whitespace test of the JSON grammar. -/
def isWs (c : Char) : Bool :=
  c = ' ' ∨ c = '\n' ∨ c = '\t' ∨ c = '\r'

/-- Whitespace skipping of the JSON decoder. -/
def skipWs (l : List Char) : List Char :=
  l.dropWhile isWs

/-- Joining of rendered fragments with a separator. -/
def joinSep (sep : List Char) : List (List Char) → List Char
  | [] => []
  | [x] => x
  | x :: y :: xs => x ++ sep ++ joinSep sep (y :: xs)

/-- Indentation prefix produced by MarshalIndent with a two-space
indent string at the given nesting depth. -/
def indentChars (n : Nat) : List Char :=
  List.replicate (2 * n) ' '

/-- Quoted and escaped JSON string literal. -/
def jsonStrChars (s : String) : List Char :=
  '"' :: escList s.data ++ ['"']

/-- Compact rendering of a JSON value, as produced by json.Marshal. -/
def Json.renderC : Json → List Char
  | .str s => jsonStrChars s
  | .num n => (toString n).data
  | .bool b => (if b then "true" else "false").data
  | .null => "null".data
  | .arr xs => '[' :: (joinSep [','] (xs.attach.map fun x => x.1.renderC)) ++ [']']
  | .obj ps =>
    '\x7b' :: (joinSep [','] (ps.attach.map fun p =>
      jsonStrChars p.1.1 ++ ':' :: p.1.2.renderC)) ++ ['\x7d']
decreasing_by
  · have h := List.sizeOf_lt_of_mem x.2
    simp only [Json.arr.sizeOf_spec]
    omega
  · have h := List.sizeOf_lt_of_mem p.2
    have h2 : sizeOf p.1.2 < sizeOf p.1 := by
      obtain ⟨⟨a, b⟩, hp⟩ := p
      simp
    simp only [Json.obj.sizeOf_spec]
    omega

/-- Indented rendering of a JSON value at a given depth, as produced by
json.MarshalIndent with an empty prefix and a two-space indent. -/
def Json.renderI (ind : Nat) : Json → List Char
  | .str s => jsonStrChars s
  | .num n => (toString n).data
  | .bool b => (if b then "true" else "false").data
  | .null => "null".data
  | .arr [] => ['[', ']']
  | .arr (x :: xs) =>
    '[' :: '\n' :: (joinSep [',', '\n'] ((x :: xs).attach.map fun y =>
      indentChars (ind + 1) ++ Json.renderI (ind + 1) y.1)) ++
      '\n' :: indentChars ind ++ [']']
  | .obj [] => ['\x7b', '\x7d']
  | .obj (p :: ps) =>
    '\x7b' :: '\n' :: (joinSep [',', '\n'] ((p :: ps).attach.map fun q =>
      indentChars (ind + 1) ++ jsonStrChars q.1.1 ++
        ':' :: ' ' :: Json.renderI (ind + 1) q.1.2)) ++
      '\n' :: indentChars ind ++ ['\x7d']
termination_by j => sizeOf j
decreasing_by
  · have h := List.sizeOf_lt_of_mem y.2
    simp only [Json.arr.sizeOf_spec]
    simp only [List.cons.sizeOf_spec] at h ⊢
    omega
  · have h := List.sizeOf_lt_of_mem q.2
    have h2 : sizeOf q.1.2 < sizeOf q.1 := by
      obtain ⟨⟨a, b⟩, hq⟩ := q
      simp
    simp only [Json.obj.sizeOf_spec]
    simp only [List.cons.sizeOf_spec] at h ⊢
    omega

/-- Digits of a JSON number accumulated into a natural number. -/
def digitsToNat (ds : List Char) : Nat :=
  ds.foldl (fun a c => a * 10 + (c.toNat - 48)) 0

/-- Scanning of an unsigned JSON integer. -/
def parseNatNum (l : List Char) : Option (Nat × List Char) :=
  let ds := l.takeWhile (fun c => c.isDigit)
  if ds = [] then none else some (digitsToNat ds, l.dropWhile (fun c => c.isDigit))

/-- Scanning of a JSON integer with optional sign. Fractions and
exponents are outside the fragment of JSON this CLI exchanges and are
rejected by the surrounding whitespace check. -/
def parseNum (l : List Char) : Option (Json × List Char) :=
  match l with
  | '-' :: r => (parseNatNum r).map fun p => (.num (-(p.1 : Int)), p.2)
  | _ => (parseNatNum l).map fun p => (.num (p.1 : Int), p.2)

mutual

/-- Fueled recursive-descent parser for a JSON value, modelling the
decoding half of encoding/json. The fuel only bounds nesting and item
count and is chosen generously by Json.parse. -/
def parseVal : Nat → List Char → Option (Json × List Char)
  | 0, _ => none
  | fuel + 1, l =>
    match skipWs l with
    | [] => none
    | c :: r =>
      if c = '"' then
        (readStr r).map fun p => (.str (String.mk p.1), p.2)
      else if c = '[' then
        match skipWs r with
        | ']' :: r2 => some (.arr [], r2)
        | _ =>
          match parseArrItems fuel r with
          | some (xs, r2) => some (.arr xs, r2)
          | none => none
      else if c = '\x7b' then
        match skipWs r with
        | '\x7d' :: r2 => some (.obj [], r2)
        | _ =>
          match parseObjItems fuel r with
          | some (ps, r2) => some (.obj ps, r2)
          | none => none
      else if c = 't' then
        match r with
        | 'r' :: 'u' :: 'e' :: r2 => some (.bool true, r2)
        | _ => none
      else if c = 'f' then
        match r with
        | 'a' :: 'l' :: 's' :: 'e' :: r2 => some (.bool false, r2)
        | _ => none
      else if c = 'n' then
        match r with
        | 'u' :: 'l' :: 'l' :: r2 => some (.null, r2)
        | _ => none
      else if c = '-' ∨ c.isDigit then parseNum (c :: r)
      else none

/-- Items of a JSON array, positioned after the opening bracket. -/
def parseArrItems : Nat → List Char → Option (List Json × List Char)
  | 0, _ => none
  | fuel + 1, l =>
    match parseVal fuel l with
    | none => none
    | some (x, r) =>
      match skipWs r with
      | ',' :: r2 =>
        match parseArrItems fuel r2 with
        | some (xs, r3) => some (x :: xs, r3)
        | none => none
      | ']' :: r2 => some ([x], r2)
      | _ => none

/-- Members of a JSON object, positioned after the opening brace. -/
def parseObjItems : Nat → List Char → Option (List (String × Json) × List Char)
  | 0, _ => none
  | fuel + 1, l =>
    match skipWs l with
    | '"' :: r =>
      match readStr r with
      | none => none
      | some (k, r2) =>
        match skipWs r2 with
        | ':' :: r3 =>
          match parseVal fuel r3 with
          | none => none
          | some (v, r4) =>
            match skipWs r4 with
            | ',' :: r5 =>
              match parseObjItems fuel r5 with
              | some (ps, r6) => some ((String.mk k, v) :: ps, r6)
              | none => none
            | '\x7d' :: r5 => some ([(String.mk k, v)], r5)
            | _ => none
        | _ => none
    | _ => none

end

/-- Parsing of a complete JSON document: one value followed by nothing
but whitespace. -/
def Json.parse (s : String) : Option Json :=
  match parseVal (2 * s.length + 2) s.data with
  | some (j, rest) => if skipWs rest = [] then some j else none
  | none => none

/-! ### Decoding of parsed JSON into the record types

Models json.Unmarshal into the corresponding Go struct or map: absent
fields keep their zero value, fields of the wrong type are an error,
unknown fields are ignored, and for duplicated keys the last value
wins. -/

/-- Lookup of an object member, last occurrence winning. -/
def jLookup (ps : List (String × Json)) (k : String) : Option Json :=
  (ps.reverse.find? (fun p => p.1 = k)).map (fun p => p.2)

/-- String-typed struct field: absent decodes to the empty string. -/
def jStringField (ps : List (String × Json)) (k : String) : Option String :=
  match jLookup ps k with
  | none => some ""
  | some (.str s) => some s
  | some _ => none

/-- Bool-typed struct field: absent decodes to false. -/
def jBoolField (ps : List (String × Json)) (k : String) : Option Bool :=
  match jLookup ps k with
  | none => some false
  | some (.bool b) => some b
  | some _ => none

/-- Unmarshalling of a CloudCredentials value. -/
def decodeCreds : Json → Option CloudCredentials
  | .obj ps =>
    match jStringField ps "accessKey", jStringField ps "secretKey",
        jStringField ps "sessionToken", jStringField ps "expiresAt" with
    | some a, some s, some st, some e =>
      some { AccessKey := a, SecretKey := s, SessionToken := st, ExpiresAt := e }
    | _, _, _, _ => none
  | _ => none

/-- Unmarshalling of one IdpProvider value. -/
def decodeProvider : Json → Option IdpProvider
  | .obj ps =>
    match jStringField ps "name", jBoolField ps "isDefault" with
    | some n, some d => some { Name := n, IsDefault := d }
    | _, _ => none
  | _ => none

/-- Unmarshalling of a list of IdpProvider values. -/
def decodeProviders : Json → Option (List IdpProvider)
  | .arr xs => xs.mapM decodeProvider
  | _ => none

/-- Unmarshalling of a map from string to string. -/
def decodeStringMap : Json → Option (List (String × String))
  | .obj ps =>
    ps.mapM fun p =>
      match p.2 with
      | .str s => some (p.1, s)
      | _ => none
  | _ => none

/-- Unmarshalling of one KeyCredentialResponse value. -/
def decodeKeyResp : Json → Option KeyCredentialResponse
  | .obj ps => do
    let creds ←
      match jLookup ps "credentials" with
      | none => some []
      | some v => decodeStringMap v
    let e ← jStringField ps "expiresAt"
    let md ←
      match jLookup ps "metadata" with
      | none => some []
      | some (.obj m) => some m
      | some _ => none
    some { Credentials := creds, ExpiresAt := e, Metadata := md }
  | _ => none

/-- Unmarshalling of a mint-keys response mapping. -/
def decodeKeyResponses : Json → Option (List (String × KeyCredentialResponse))
  | .obj ps => ps.mapM fun p => (decodeKeyResp p.2).map fun r => (p.1, r)
  | _ => none

/-! ### Transport client (cmd/client.go)

The HTTP layer is a parameter: a post or get function returning either
a transport error or a status code and response body. Reading the body
always succeeds in this model. Library-generated detail wrapped into
the parse errors by the %w verb is dropped; the literal message prefix
written in the source is kept. -/

/-- A map in marshalled output has its keys sorted, as json.Marshal
does. -/
def sortByKey {α : Type} (l : List (String × α)) : List (String × α) :=
  l.mergeSort (fun a b => decide (a.1 ≤ b.1))

/-- Marshalled MintRequest body for the legacy mint call, with the
omitempty fields dropped when empty. -/
def mintRequestBody (oidcToken idpName keyset : String) : String :=
  String.mk (Json.renderC (.obj (
    [("oidcToken", .str oidcToken)] ++
    (if idpName = "" then [] else [("idpName", .str idpName)]) ++
    (if keyset = "" then [] else [("keyset", .str keyset)]))))

/-- MintCredentials from cmd/client.go: marshal the request, post it to
the mint endpoint, wrap transport failure, reject any non-200 status
with the status code and raw body in the message, then unmarshal. -/
def MintCredentials (post : String → String → String → Except String (Nat × String))
    (serverURL oidcToken idpName keyset : String) : Except String CloudCredentials :=
  let url := serverURL ++ "/credentials/mint"
  match post url "application/json" (mintRequestBody oidcToken idpName keyset) with
  | .error e => .error ("failed to connect to broker server at " ++ serverURL ++ ": " ++ e)
  | .ok (status, body) =>
    if status ≠ 200 then
      .error ("server returned error " ++ toString status ++ ": " ++ body)
    else
      match (Json.parse body).bind decodeCreds with
      | none => .error "failed to parse credentials response"
      | some creds => .ok creds

/-- ListIdpProviders from cmd/client.go: get the idp-providers
endpoint, wrap transport failure, reject any non-200 status with the
status code and raw body in the message, then unmarshal. -/
def ListIdpProviders (get : String → Except String (Nat × String))
    (serverURL : String) : Except String (List IdpProvider) :=
  let url := serverURL ++ "/credentials/idp-providers"
  match get url with
  | .error e => .error ("failed to connect to broker server at " ++ serverURL ++ ": " ++ e)
  | .ok (status, body) =>
    if status ≠ 200 then
      .error ("server returned error " ++ toString status ++ ": " ++ body)
    else
      match (Json.parse body).bind decodeProviders with
      | none => .error "failed to parse providers response"
      | some ps => .ok ps

/-- Marshalled MintKeysRequest body (struct declared in cmd/client.go),
with the omitempty fields dropped when empty, zero or false. -/
def mintKeysRequestBody (oidcToken idpName : String) (keys : List String)
    (duration : Int) (all : Bool) : String :=
  String.mk (Json.renderC (.obj (
    [("oidcToken", .str oidcToken)] ++
    (if idpName = "" then [] else [("idpName", .str idpName)]) ++
    (if keys = [] then [] else [("keys", .arr (keys.map .str))]) ++
    (if duration = 0 then [] else [("duration", .num duration)]) ++
    (if all then [("all", .bool true)] else []))))

/-- Modelled from the spec: the VoidkeyClient.MintKeys method body is
absent from src (only its request struct, callers and tests appear).
Spec section 4.1 gives it the same shape and error taxonomy as the
other client calls: post to the mint-keys endpoint, wrap transport
failure, reject any non-200 status with the status code and raw body in
the message (the tests expect the same literal prefix), then unmarshal
the key-response mapping, failing with the parse message the tests
expect. -/
def MintKeys (post : String → String → String → Except String (Nat × String))
    (serverURL oidcToken idpName : String) (keys : List String)
    (duration : Int) (all : Bool) :
    Except String (List (String × KeyCredentialResponse)) :=
  let url := serverURL ++ "/credentials/mint-keys"
  match post url "application/json" (mintKeysRequestBody oidcToken idpName keys duration all) with
  | .error e => .error ("failed to connect to broker server at " ++ serverURL ++ ": " ++ e)
  | .ok (status, body) =>
    if status ≠ 200 then
      .error ("server returned error " ++ toString status ++ ": " ++ body)
    else
      match (Json.parse body).bind decodeKeyResponses with
      | none => .error "failed to parse key responses"
      | some rs => .ok rs

/-! ### Mint command (cmd/mint.go)

The flow is parameterised over the broker behaviour (the client with
its transport baked in). Each entry of the stdout or stderr list is one
Fprintf call from the source. The flow also records which broker calls
it issued, in order. -/

/-- Token resolution steps of mintCredentialsWithFlags, returning the
resolved token (none when resolution fails) and the diagnostic lines
the source prints to stderr while resolving. -/
def resolveTokenWithLog (env : Env) (flag idpName : String) :
    Option String × List String :=
  let r1 :=
    if flag = "" then
      let t := env "OIDC_TOKEN"
      if t = "" then
        let g := env "GITHUB_TOKEN"
        if g ≠ "" then (g, ["🔍 Using GITHUB_TOKEN environment variable"])
        else (g, [])
      else (t, ["🔍 Using OIDC_TOKEN environment variable"])
    else (flag, ([] : List String))
  let r2 :=
    if r1.1 = "" ∧ idpName = "hello-world" then
      ("cli-hello-world-token", r1.2 ++ ["🎭 Using hello-world IdP with default token"])
    else r1
  if r2.1 = "" then (none, r2.2) else (some r2.1, r2.2)

/-- Error text returned when no token can be resolved, verbatim from
cmd/mint.go. -/
def missingTokenMsg : String :=
  "OIDC token is required. Provide via:\n" ++
  "  --token flag: voidkey mint --token \"your.jwt.token\"\n" ++
  "  OIDC_TOKEN env var: export OIDC_TOKEN=\"your.jwt.token\"\n" ++
  "  GITHUB_TOKEN env var (for GitHub Actions IdP)\n\n" ++
  "To obtain an OIDC token:\n" ++
  "  - Auth0: Use the Auth0 CLI or obtain from your application\n" ++
  "  - GitHub Actions: Available as $\x7b\x7b github.token \x7d\x7d\n" ++
  "  - Other IdPs: Consult your identity provider\x27s documentation\n" ++
  "  - Hello World: Use --idp hello-world for testing (no token required)"

/-- Rendering of a Go string slice by the %v verb. -/
def goStrSliceRepr (l : List String) : String :=
  "[" ++ String.intercalate " " l ++ "]"

/-- JSON tree of a CloudCredentials value in struct-field order, with
sessionToken omitted when empty. -/
def credsToJson (x : CloudCredentials) : Json :=
  .obj ([("accessKey", .str x.AccessKey), ("secretKey", .str x.SecretKey)] ++
    (if x.SessionToken = "" then [] else [("sessionToken", .str x.SessionToken)]) ++
    [("expiresAt", .str x.ExpiresAt)])

/-- outputAsJSON from cmd/mint.go: MarshalIndent with a two-space
indent, printed with a trailing newline. -/
def outputAsJSON (creds : CloudCredentials) : String :=
  String.mk (Json.renderI 0 (credsToJson creds)) ++ "\n"

/-- outputAsEnvVars from cmd/mint.go: the pair of stdout lines and
stderr lines it prints, given the credentials and the optional keyset
environment-variable mapping. -/
def outputAsEnvVars (creds : CloudCredentials)
    (keysetVars : Option (List (String × String))) : List String × List String :=
  let core :=
    ["export AWS_ACCESS_KEY_ID=" ++ creds.AccessKey,
     "export AWS_SECRET_ACCESS_KEY=" ++ creds.SecretKey] ++
    (if creds.SessionToken ≠ "" then
      ["export AWS_SESSION_TOKEN=" ++ creds.SessionToken] else []) ++
    ["export AWS_CREDENTIAL_EXPIRATION=" ++ creds.ExpiresAt]
  let ks : List String × List String :=
    match keysetVars with
    | some kv =>
      if kv ≠ [] then
        (kv.map fun p => "export " ++ p.1 ++ "=" ++ p.2,
         "🔑 Setting keyset environment variables:" ::
           kv.map fun p => "  " ++ p.1 ++ "=" ++ p.2)
      else ([], [])
    | none => ([], [])
  (core ++ ks.1,
   ks.2 ++
   ["✅ Credentials minted successfully (expires: " ++ creds.ExpiresAt ++ ")",
    "💡 To use: eval \"$(voidkey mint)\""])

/-- Loop body of outputKeysAsEnvVars: per key, one diagnostic line on
stderr and one export line on stdout per credential entry. -/
def keysLoop : List (String × KeyCredentialResponse) → List String × List String
  | [] => ([], [])
  | (name, r) :: rest =>
    let p := keysLoop rest
    (r.Credentials.map (fun kv => "export " ++ kv.1 ++ "=" ++ kv.2) ++ p.1,
     ("🔑 Key: " ++ name ++ " (expires: " ++ r.ExpiresAt ++ ")") :: p.2)

/-- Total number of credential entries across a key-response mapping,
the counter the source accumulates while looping. -/
def totalVars (rs : List (String × KeyCredentialResponse)) : Nat :=
  rs.foldr (fun kr acc => kr.2.Credentials.length + acc) 0

/-- outputKeysAsEnvVars from cmd/mint.go: stdout and stderr lines. -/
def outputKeysAsEnvVars (rs : List (String × KeyCredentialResponse)) :
    List String × List String :=
  let p := keysLoop rs
  (p.1,
   p.2 ++
   ["✅ Successfully minted " ++ toString rs.length ++ " keys with " ++
      toString (totalVars rs) ++ " environment variables",
    "💡 To use: eval \"$(voidkey mint --keys MINIO_CREDENTIALS)\""])

/-- JSON tree of one KeyCredentialResponse in struct-field order, the
map fields with sorted keys and metadata omitted when empty. -/
def keyRespToJson (r : KeyCredentialResponse) : Json :=
  .obj ([("credentials", .obj ((sortByKey r.Credentials).map fun p => (p.1, .str p.2))),
    ("expiresAt", .str r.ExpiresAt)] ++
    (if r.Metadata.isEmpty then ([] : List (String × Json))
     else [("metadata", Json.obj (sortByKey r.Metadata))]))

/-- outputKeysAsJSON from cmd/mint.go: MarshalIndent of the response
mapping with sorted keys, printed with a trailing newline. -/
def outputKeysAsJSON (rs : List (String × KeyCredentialResponse)) : String :=
  String.mk (Json.renderI 0 (.obj ((sortByKey rs).map fun p => (p.1, keyRespToJson p.2)))) ++ "\n"

/-- Record of one broker call issued by the mint flow. -/
inductive BrokerCall where
  | mintCredentials (token idpName keyset : String)
  | mintKeys (token idpName : String) (keys : List String) (duration : Int) (all : Bool)
  | getKeysetKeysWithToken (token keyset : String)
deriving Repr, DecidableEq

/-- Broker behaviour seen by the mint command: the three client methods
it may invoke, with the transport baked in. -/
structure BrokerBehavior where
  MintCredentials : String → String → String → Except String CloudCredentials
  MintKeys : String → String → List String → Int → Bool →
    Except String (List (String × KeyCredentialResponse))
  GetKeysetKeysWithToken : String → String → Except String (List (String × String))

/-- Observable outcome of one mint invocation. -/
structure MintOutcome where
  result : Except String Unit
  stdout : List String
  stderr : List String
  calls : List BrokerCall
deriving Repr

/-- mintCredentialsWithFlags from cmd/mint.go: token resolution, the
missing-token failure, IdP diagnostics, mode selection between the
key-based path and the legacy keyset path, invocation of the broker,
the locally recovered keyset-lookup warning, and output rendering. -/
def mintCredentialsWithFlags (b : BrokerBehavior) (env : Env)
    (token format idpName keyset : String) (keys : List String)
    (duration : Int) (all : Bool) : MintOutcome :=
  let r := resolveTokenWithLog env token idpName
  match r.1 with
  | none => ⟨.error missingTokenMsg, [], r.2, []⟩
  | some tk =>
    let idpLine :=
      if idpName ≠ "" then "🔍 Using IdP provider: " ++ idpName
      else "🔍 Using server default IdP provider"
    if keys ≠ [] ∨ all then
      let modeLine :=
        if all then "🔑 Minting all available keys"
        else "🔑 Minting keys: " ++ goStrSliceRepr keys
      let durLog :=
        if duration > 0 then ["⏱️ Duration override: " ++ toString duration ++ " seconds"]
        else []
      match b.MintKeys tk idpName keys duration all with
      | .error e =>
        ⟨.error e, [], r.2 ++ [idpLine, modeLine] ++ durLog,
         [.mintKeys tk idpName keys duration all]⟩
      | .ok rs =>
        if format = "json" then
          ⟨.ok (), [outputKeysAsJSON rs], r.2 ++ [idpLine, modeLine] ++ durLog,
           [.mintKeys tk idpName keys duration all]⟩
        else
          let out := outputKeysAsEnvVars rs
          ⟨.ok (), out.1, r.2 ++ [idpLine, modeLine] ++ durLog ++ out.2,
           [.mintKeys tk idpName keys duration all]⟩
    else
      let ksLine :=
        if keyset ≠ "" then "🔑 [LEGACY] Using keyset: " ++ keyset
        else "🔑 [LEGACY] Using all available keys from identity keysets"
      match b.MintCredentials tk idpName keyset with
      | .error e =>
        ⟨.error e, [], r.2 ++ [idpLine, ksLine], [.mintCredentials tk idpName keyset]⟩
      | .ok creds =>
        let kv :
            Option (List (String × String)) × List String × List BrokerCall :=
          if keyset ≠ "" then
            match b.GetKeysetKeysWithToken tk keyset with
            | .error e =>
              (none,
               ["⚠️  Warning: Could not retrieve keyset environment variables: " ++ e],
               [.getKeysetKeysWithToken tk keyset])
            | .ok m => (some m, [], [.getKeysetKeysWithToken tk keyset])
          else (none, [], [])
        if format = "json" then
          ⟨.ok (), [outputAsJSON creds], r.2 ++ [idpLine, ksLine] ++ kv.2.1,
           .mintCredentials tk idpName keyset :: kv.2.2⟩
        else
          let out := outputAsEnvVars creds kv.1
          ⟨.ok (), out.1, r.2 ++ [idpLine, ksLine] ++ kv.2.1 ++ out.2,
           .mintCredentials tk idpName keyset :: kv.2.2⟩

/-! ### List-providers command (cmd/list.go)

The tabwriter only aligns columns with spaces; the table is modelled at
cell level, each data row being the NAME cell and the DEFAULT cell the
source writes separated by a tab. -/

/-- Data rows of the list-idps table: per provider its name and the
default indicator, a check mark exactly when IsDefault holds. -/
def listIdpsRows (providers : List IdpProvider) : List (String × String) :=
  providers.map fun p => (p.Name, if p.IsDefault then "✓" else "")

/-- RunE body of the list-idps command: wrap a fetch failure, print the
fixed message on an empty list, otherwise print header, separator and
one row per provider. -/
def listIdpProvidersRun (fetch : Except String (List IdpProvider)) :
    Except String (List String) :=
  match fetch with
  | .error e => .error ("failed to list IdP providers: " ++ e)
  | .ok providers =>
    if providers = [] then .ok ["No Identity Providers configured"]
    else
      .ok ("NAME\tDEFAULT" :: "----\t-------" ::
        (listIdpsRows providers).map fun row => row.1 ++ "\t" ++ row.2)

/-! ### Configuration (cmd/config.go and cmd/root.go) -/

/-- DefaultConfig from cmd/config.go. -/
def DefaultConfig : Config :=
  { Server := "http://localhost:3000", IdpName := "", TokenEnv := "OIDC_TOKEN" }

/-- State of the configuration file as the loader can observe it: the
stat call reports it absent, reading it fails, parsing it fails, or it
parses to a Config whose missing fields read as empty strings. -/
inductive ConfigFile where
  | absent
  | unreadable
  | malformed
  | parsed (c : Config)
deriving Repr, DecidableEq

/-- LoadConfig from cmd/config.go: default on an absent file, errors on
an unreadable or unparsable file, and defaults applied to the empty
Server and TokenEnv fields of a parsed file. -/
def LoadConfig : ConfigFile → Except String Config
  | .absent => .ok DefaultConfig
  | .unreadable => .error "failed to read config file"
  | .malformed => .error "failed to parse config file"
  | .parsed c =>
    .ok { c with
      Server := if c.Server = "" then "http://localhost:3000" else c.Server,
      TokenEnv := if c.TokenEnv = "" then "OIDC_TOKEN" else c.TokenEnv }

/-- Startup behaviour of cmd/root.go: load the configuration, and on
any loading error fall back to the defaults and continue. -/
def rootInitConfig (f : ConfigFile) : Config :=
  match LoadConfig f with
  | .ok c => c
  | .error _ => DefaultConfig

/-- GetTokenWithSource from cmd/config.go: the configured token
environment variable first, then the OIDC_TOKEN and GITHUB_TOKEN
fallbacks, returning the token and the variable that supplied it. -/
def GetTokenWithSource (c : Config) (env : Env) : String × String :=
  if c.TokenEnv ≠ "" ∧ env c.TokenEnv ≠ "" then (env c.TokenEnv, c.TokenEnv)
  else if env "OIDC_TOKEN" ≠ "" then (env "OIDC_TOKEN", "OIDC_TOKEN")
  else if env "GITHUB_TOKEN" ≠ "" then (env "GITHUB_TOKEN", "GITHUB_TOKEN")
  else ("", "")

/-- GetToken from cmd/config.go. -/
def GetToken (c : Config) (env : Env) : String :=
  (GetTokenWithSource c env).1

/-- Substring test used to state the error-message claims. -/
def containsStr (s pat : String) : Bool :=
  decide (List.IsInfix pat.data s.data)

/-! ### Shape helpers for the JSON round-trip proof

These name the character shape that the indented renderer gives a flat
object of string fields, so the parser lemmas can recurse over it. -/

/-- One rendered member line of a depth-one object: two spaces of
indent, the quoted key, a colon and space, the quoted value. -/
def pairChars (q : String × String) : List Char :=
  ' ' :: ' ' :: jsonStrChars q.1 ++ ':' :: ' ' :: jsonStrChars q.2

/-- Rendered continuation after one member: either the closing newline
and brace followed by the trailing input, or a comma, newline and the
next member. -/
def tailGlue (rest : List Char) : List (String × String) → List Char
  | [] => '\n' :: '\x7d' :: rest
  | q :: qs => ',' :: '\n' :: pairChars q ++ tailGlue rest qs

/-! ### Concrete fixtures used to instantiate the theorems -/

/-- Environment holding only the two token variables. -/
def envWith (oidc github : String) : Env := fun n =>
  if n = "OIDC_TOKEN" then oidc else if n = "GITHUB_TOKEN" then github else ""

/-- Environment holding only a custom-named token variable. -/
def customEnv : Env := fun n =>
  if n = "CUSTOM_TOKEN" then "tok" else ""

/-- Broker behaviour whose calls all fail; used where no call should be
reached or where a minting failure is wanted. -/
def noBroker : BrokerBehavior :=
  { MintCredentials := fun _ _ _ => .error "mint failed",
    MintKeys := fun _ _ _ _ _ => .error "mint-keys failed",
    GetKeysetKeysWithToken := fun _ _ => .error "lookup failed" }

/-- Broker behaviour that mints credentials successfully but fails the
keyset environment-variable lookup. -/
def keysetFailBroker : BrokerBehavior :=
  { MintCredentials := fun _ _ _ =>
      .ok { AccessKey := "AK", SecretKey := "SK", SessionToken := "ST",
            ExpiresAt := "2025-01-01T00:00:00Z" },
    MintKeys := fun _ _ _ _ _ => .error "mint-keys failed",
    GetKeysetKeysWithToken := fun _ _ => .error "boom" }

/-- Transport whose post always answers with a 500 status. -/
def failingPost : String → String → String → Except String (Nat × String) :=
  fun _ _ _ => .ok (500, "Internal Server Error")

/-- Transport whose get always answers with a 500 status. -/
def failingGet : String → Except String (Nat × String) :=
  fun _ => .ok (500, "Internal Server Error")

end Voidkey

namespace Voidkey

/-! ## Theorems -/

set_option maxRecDepth 16384

/-- C1: for every invocation of the mint command the bearer token is
resolved by precedence: a non-empty token flag wins; otherwise a
non-empty OIDC_TOKEN variable; otherwise a non-empty GITHUB_TOKEN
variable; otherwise the fixed placeholder when the IdP name is
hello-world; otherwise resolution fails. In particular with the flag
set to A and both variables set to B and C the resolved token is A, and
with only B and C set it is B. -/
theorem C1_token_resolution_precedence :
    (∀ (env : Env) (flag idpName : String), flag ≠ "" →
      (resolveTokenWithLog env flag idpName).1 = some flag) ∧
    (∀ (env : Env) (idpName : String), env "OIDC_TOKEN" ≠ "" →
      (resolveTokenWithLog env "" idpName).1 = some (env "OIDC_TOKEN")) ∧
    (∀ (env : Env) (idpName : String), env "OIDC_TOKEN" = "" →
      env "GITHUB_TOKEN" ≠ "" →
      (resolveTokenWithLog env "" idpName).1 = some (env "GITHUB_TOKEN")) ∧
    (∀ (env : Env), env "OIDC_TOKEN" = "" → env "GITHUB_TOKEN" = "" →
      (resolveTokenWithLog env "" "hello-world").1 = some "cli-hello-world-token") ∧
    (∀ (env : Env) (idpName : String), env "OIDC_TOKEN" = "" →
      env "GITHUB_TOKEN" = "" → idpName ≠ "hello-world" →
      (resolveTokenWithLog env "" idpName).1 = none) ∧
    (∀ (A B C idpName : String), A ≠ "" →
      (resolveTokenWithLog (envWith B C) A idpName).1 = some A) ∧
    (∀ (B C idpName : String), B ≠ "" →
      (resolveTokenWithLog (envWith B C) "" idpName).1 = some B) := by
  refine ⟨?_, ?_, ?_, ?_, ?_, ?_, ?_⟩
  · intro env flag idpName h
    simp [resolveTokenWithLog, h]
  · intro env idpName h
    simp [resolveTokenWithLog, h]
  · intro env idpName h1 h2
    simp [resolveTokenWithLog, h1, h2]
  · intro env h1 h2
    simp [resolveTokenWithLog, h1, h2]
  · intro env idpName h1 h2 h3
    simp [resolveTokenWithLog, h1, h2, h3]
  · intro A B C idpName h
    simp [resolveTokenWithLog, h]
  · intro B C idpName h
    simp [resolveTokenWithLog, envWith, h]

/-- Witness for C1 at concrete inputs. -/
theorem C1_token_resolution_precedence_witness :
    (resolveTokenWithLog (envWith "B" "C") "A" "").1 = some "A" ∧
    (resolveTokenWithLog (envWith "B" "C") "" "").1 = some "B" ∧
    (resolveTokenWithLog (envWith "" "C") "" "").1 = some "C" ∧
    (resolveTokenWithLog (envWith "" "") "" "hello-world").1 =
      some "cli-hello-world-token" ∧
    (resolveTokenWithLog (envWith "" "") "" "auth0").1 = none := by
  refine ⟨?_, ?_, ?_, ?_, ?_⟩
  · exact C1_token_resolution_precedence.1 (envWith "B" "C") "A" "" (by decide)
  · exact C1_token_resolution_precedence.2.2.2.2.2.2 "B" "C" "" (by decide)
  · have h := C1_token_resolution_precedence.2.2.1 (envWith "" "C") "" (by decide) (by decide)
    simpa [envWith] using h
  · exact C1_token_resolution_precedence.2.2.2.1 (envWith "" "") (by decide) (by decide)
  · exact C1_token_resolution_precedence.2.2.2.2.1 (envWith "" "") "auth0"
      (by decide) (by decide) (by decide)

/-- C2: when no token can be resolved, the mint command returns the
missing-token error, whose text lists the token flag, both token
environment variables and the hello-world option, and it issues no
broker call and writes nothing to stdout. -/
theorem C2_missing_token_error :
    ∀ (b : BrokerBehavior) (env : Env) (flag format idpName keyset : String)
      (keys : List String) (duration : Int) (all : Bool),
      (resolveTokenWithLog env flag idpName).1 = none →
      (mintCredentialsWithFlags b env flag format idpName keyset keys duration all).result
          = .error missingTokenMsg ∧
      (mintCredentialsWithFlags b env flag format idpName keyset keys duration all).calls
          = [] ∧
      (mintCredentialsWithFlags b env flag format idpName keyset keys duration all).stdout
          = [] ∧
      containsStr missingTokenMsg "--token flag" = true ∧
      containsStr missingTokenMsg "OIDC_TOKEN env var" = true ∧
      containsStr missingTokenMsg "GITHUB_TOKEN env var" = true ∧
      containsStr missingTokenMsg "--idp hello-world" = true := by
  intro b env flag format idpName keyset keys duration all h
  refine ⟨?_, ?_, ?_, ?_, ?_, ?_, ?_⟩
  · simp [mintCredentialsWithFlags, h]
  · simp [mintCredentialsWithFlags, h]
  · simp [mintCredentialsWithFlags, h]
  · decide
  · decide
  · decide
  · decide

/-- Witness for C2 at concrete inputs. -/
theorem C2_missing_token_error_witness :
    (mintCredentialsWithFlags noBroker (envWith "" "") "" "env" "auth0" "" [] 0 false).result
        = .error missingTokenMsg ∧
    (mintCredentialsWithFlags noBroker (envWith "" "") "" "env" "auth0" "" [] 0 false).calls
        = [] := by
  have h := C2_missing_token_error noBroker (envWith "" "") "" "env" "auth0" "" [] 0 false
    (by decide)
  exact ⟨h.1, h.2.1⟩

/-- Helper: a list prefix no longer than a leading segment of an
append equals the take of that segment. -/
theorem prefix_eq_take {p q t u : List Char} (h : p ++ t = q ++ u)
    (hl : p.length ≤ q.length) : p = q.take p.length := by
  have h2 := congrArg (List.take p.length) h
  rw [List.take_left] at h2
  rw [List.take_append_of_le_length hl] at h2
  exact h2

/-- C4: env rendering of a CloudCredentials value with no keyset
variable mapping emits exactly four export lines in the documented
order when the session token is non-empty, and exactly three with no
session-token line when it is empty. -/
theorem C4_env_render_line_counts :
    ∀ (creds : CloudCredentials) (kv : Option (List (String × String))),
      kv = none ∨ kv = some [] →
      (creds.SessionToken ≠ "" →
        (outputAsEnvVars creds kv).1 =
          ["export AWS_ACCESS_KEY_ID=" ++ creds.AccessKey,
           "export AWS_SECRET_ACCESS_KEY=" ++ creds.SecretKey,
           "export AWS_SESSION_TOKEN=" ++ creds.SessionToken,
           "export AWS_CREDENTIAL_EXPIRATION=" ++ creds.ExpiresAt] ∧
        (outputAsEnvVars creds kv).1.length = 4) ∧
      (creds.SessionToken = "" →
        (outputAsEnvVars creds kv).1 =
          ["export AWS_ACCESS_KEY_ID=" ++ creds.AccessKey,
           "export AWS_SECRET_ACCESS_KEY=" ++ creds.SecretKey,
           "export AWS_CREDENTIAL_EXPIRATION=" ++ creds.ExpiresAt] ∧
        (outputAsEnvVars creds kv).1.length = 3 ∧
        ∀ line ∈ (outputAsEnvVars creds kv).1,
          ¬ List.IsPrefix "export AWS_SESSION_TOKEN=".data line.data) := by
  intro creds kv hkv
  have hout : ∀ h : creds.SessionToken = "",
      (outputAsEnvVars creds kv).1 =
        ["export AWS_ACCESS_KEY_ID=" ++ creds.AccessKey,
         "export AWS_SECRET_ACCESS_KEY=" ++ creds.SecretKey,
         "export AWS_CREDENTIAL_EXPIRATION=" ++ creds.ExpiresAt] := by
    intro h
    rcases hkv with rfl | rfl <;> simp [outputAsEnvVars, h]
  constructor
  · intro h
    have he : (outputAsEnvVars creds kv).1 =
        ["export AWS_ACCESS_KEY_ID=" ++ creds.AccessKey,
         "export AWS_SECRET_ACCESS_KEY=" ++ creds.SecretKey,
         "export AWS_SESSION_TOKEN=" ++ creds.SessionToken,
         "export AWS_CREDENTIAL_EXPIRATION=" ++ creds.ExpiresAt] := by
      rcases hkv with rfl | rfl <;> simp [outputAsEnvVars, h]
    exact ⟨he, by rw [he]; rfl⟩
  · intro h
    refine ⟨hout h, by rw [hout h]; rfl, ?_⟩
    intro line hline
    rw [hout h] at hline
    simp only [List.mem_cons, List.not_mem_nil, or_false] at hline
    have key : ∀ (lit v : String),
        "export AWS_SESSION_TOKEN=".data.length ≤ lit.data.length →
        "export AWS_SESSION_TOKEN=".data ≠
          lit.data.take "export AWS_SESSION_TOKEN=".data.length →
        ¬ List.IsPrefix "export AWS_SESSION_TOKEN=".data (lit ++ v).data := by
      intro lit v hlen hne hpre
      obtain ⟨t, ht⟩ := hpre
      rw [String.data_append] at ht
      exact hne (prefix_eq_take ht hlen)
    rcases hline with rfl | rfl | rfl
    · exact key "export AWS_ACCESS_KEY_ID=" creds.AccessKey (by decide) (by decide)
    · exact key "export AWS_SECRET_ACCESS_KEY=" creds.SecretKey (by decide) (by decide)
    · exact key "export AWS_CREDENTIAL_EXPIRATION=" creds.ExpiresAt (by decide) (by decide)

/-- Witness for C4 at concrete inputs. -/
theorem C4_env_render_line_counts_witness :
    (outputAsEnvVars
      { AccessKey := "AK", SecretKey := "SK", SessionToken := "ST",
        ExpiresAt := "EXP" } none).1.length = 4 ∧
    (outputAsEnvVars
      { AccessKey := "AK", SecretKey := "SK", SessionToken := "",
        ExpiresAt := "EXP" } none).1.length = 3 := by
  have h1 := C4_env_render_line_counts
    { AccessKey := "AK", SecretKey := "SK", SessionToken := "ST", ExpiresAt := "EXP" }
    none (Or.inl rfl)
  have h2 := C4_env_render_line_counts
    { AccessKey := "AK", SecretKey := "SK", SessionToken := "", ExpiresAt := "EXP" }
    none (Or.inl rfl)
  exact ⟨(h1.1 (by decide)).2, (h2.2 rfl).2.1⟩

/-- Helper: stdout lines of the key-output loop. -/
theorem keysLoop_fst (rs : List (String × KeyCredentialResponse)) :
    (keysLoop rs).1 =
      rs.flatMap fun kr => kr.2.Credentials.map fun p => "export " ++ p.1 ++ "=" ++ p.2 := by
  induction rs with
  | nil => rfl
  | cons kr rest ih =>
    obtain ⟨name, r⟩ := kr
    simp [keysLoop, ih]

/-- Helper: stderr lines of the key-output loop. -/
theorem keysLoop_snd (rs : List (String × KeyCredentialResponse)) :
    (keysLoop rs).2 =
      rs.map fun kr => "🔑 Key: " ++ kr.1 ++ " (expires: " ++ kr.2.ExpiresAt ++ ")" := by
  induction rs with
  | nil => rfl
  | cons kr rest ih =>
    obtain ⟨name, r⟩ := kr
    simp [keysLoop, ih]

/-- Helper: the loop emits one stdout line per credential entry. -/
theorem keysLoop_fst_length (rs : List (String × KeyCredentialResponse)) :
    (keysLoop rs).1.length = totalVars rs := by
  induction rs with
  | nil => rfl
  | cons kr rest ih =>
    obtain ⟨name, r⟩ := kr
    simp [keysLoop, totalVars, List.foldr] at ih ⊢
    omega

/-- C5: env rendering of a mint-keys response mapping emits one export
line per credential entry on stdout, one key diagnostic per key name on
stderr, and a summary naming exactly the number of keys and the total
number of environment variables. -/
theorem C5_keys_render_counts :
    ∀ rs : List (String × KeyCredentialResponse),
      (outputKeysAsEnvVars rs).1 =
        (rs.flatMap fun kr => kr.2.Credentials.map fun p => "export " ++ p.1 ++ "=" ++ p.2) ∧
      (outputKeysAsEnvVars rs).1.length = totalVars rs ∧
      (outputKeysAsEnvVars rs).2 =
        (rs.map fun kr => "🔑 Key: " ++ kr.1 ++ " (expires: " ++ kr.2.ExpiresAt ++ ")") ++
        ["✅ Successfully minted " ++ toString rs.length ++ " keys with " ++
           toString (totalVars rs) ++ " environment variables",
         "💡 To use: eval \"$(voidkey mint --keys MINIO_CREDENTIALS)\""] := by
  intro rs
  refine ⟨?_, ?_, ?_⟩
  · simpa [outputKeysAsEnvVars] using keysLoop_fst rs
  · simpa [outputKeysAsEnvVars] using keysLoop_fst_length rs
  · simp [outputKeysAsEnvVars, keysLoop_snd rs]

/-- C7: the list-idps command prints exactly the fixed message and
succeeds on an empty provider list; otherwise it renders header,
separator and one row per provider, the DEFAULT cell of a row holding
the check mark exactly when that provider is the default, so a list
with exactly one default renders exactly one check mark. -/
theorem C7_list_idps_render :
    (listIdpProvidersRun (.ok []) = .ok ["No Identity Providers configured"]) ∧
    (∀ ps : List IdpProvider, ps ≠ [] →
      listIdpProvidersRun (.ok ps) =
        .ok ("NAME\tDEFAULT" :: "----\t-------" ::
          (listIdpsRows ps).map fun row => row.1 ++ "\t" ++ row.2)) ∧
    (∀ ps : List IdpProvider,
      (listIdpsRows ps).countP (fun row => row.2 = "✓") =
        ps.countP (fun p => p.IsDefault)) ∧
    (∀ (ps : List IdpProvider) (i : Nat),
      ((listIdpsRows ps)[i]?.map fun row => row.2 == "✓") =
        (ps[i]?.map fun p => p.IsDefault)) ∧
    (∀ ps : List IdpProvider, ps.countP (fun p => p.IsDefault) = 1 →
      (listIdpsRows ps).countP (fun row => row.2 = "✓") = 1) := by
  have hcount : ∀ ps : List IdpProvider,
      (listIdpsRows ps).countP (fun row => row.2 = "✓") =
        ps.countP (fun p => p.IsDefault) := by
    intro ps
    rw [listIdpsRows, List.countP_map]
    apply List.countP_congr
    intro p _
    cases h : p.IsDefault <;> simp [h]
  refine ⟨by rfl, ?_, hcount, ?_, ?_⟩
  · intro ps hne
    simp [listIdpProvidersRun, hne]
  · intro ps i
    rw [listIdpsRows, List.getElem?_map]
    rcases h : ps[i]? with _ | p
    · simp
    · cases hd : p.IsDefault <;> simp [hd]
  · intro ps h1
    rw [hcount ps, h1]

/-- Witness for C7 at concrete inputs. -/
theorem C7_list_idps_render_witness :
    listIdpProvidersRun (.ok [{ Name := "auth0", IsDefault := true },
        { Name := "github", IsDefault := false }]) =
      .ok ["NAME\tDEFAULT", "----\t-------", "auth0\t✓", "github\t"] ∧
    (listIdpsRows [{ Name := "auth0", IsDefault := true },
        { Name := "github", IsDefault := false }]).countP
      (fun row => row.2 = "✓") = 1 := by
  constructor
  · have h := C7_list_idps_render.2.1
      [{ Name := "auth0", IsDefault := true }, { Name := "github", IsDefault := false }]
      (by decide)
    simpa [listIdpsRows] using h
  · exact C7_list_idps_render.2.2.2.2
      [{ Name := "auth0", IsDefault := true }, { Name := "github", IsDefault := false }]
      (by decide)

/-- C9: errors of the broker minting calls propagate unchanged to the
command result; amended per the source: a failure of the keyset
environment-variable lookup after successful minting is recovered
locally with a stderr warning and the invocation still succeeds. -/
theorem C9_error_propagation :
    (∀ (b : BrokerBehavior) (env : Env)
      (flag format idpName keyset tk e : String) (duration : Int),
      (resolveTokenWithLog env flag idpName).1 = some tk →
      b.MintCredentials tk idpName keyset = .error e →
      (mintCredentialsWithFlags b env flag format idpName keyset [] duration false).result
        = .error e) ∧
    (∀ (b : BrokerBehavior) (env : Env)
      (flag format idpName keyset tk e : String) (keys : List String)
      (duration : Int) (all : Bool),
      (resolveTokenWithLog env flag idpName).1 = some tk →
      (keys ≠ [] ∨ all = true) →
      b.MintKeys tk idpName keys duration all = .error e →
      (mintCredentialsWithFlags b env flag format idpName keyset keys duration all).result
        = .error e) ∧
    (∀ (b : BrokerBehavior) (env : Env)
      (flag format idpName keyset tk e : String) (duration : Int)
      (creds : CloudCredentials),
      (resolveTokenWithLog env flag idpName).1 = some tk →
      keyset ≠ "" →
      b.MintCredentials tk idpName keyset = .ok creds →
      b.GetKeysetKeysWithToken tk keyset = .error e →
      (mintCredentialsWithFlags b env flag format idpName keyset [] duration false).result
          = .ok () ∧
      ("⚠️  Warning: Could not retrieve keyset environment variables: " ++ e) ∈
        (mintCredentialsWithFlags b env flag format idpName keyset [] duration false).stderr) := by
  refine ⟨?_, ?_, ?_⟩
  · intro b env flag format idpName keyset tk e duration hres hmint
    simp [mintCredentialsWithFlags, hres, hmint]
  · intro b env flag format idpName keyset tk e keys duration all hres hmode hmint
    rcases hmode with hne | rfl
    · simp [mintCredentialsWithFlags, hres, hne, hmint]
    · simp [mintCredentialsWithFlags, hres, hmint]
  · intro b env flag format idpName keyset tk e duration creds hres hks hmint hlook
    by_cases hf : format = "json" <;>
      simp [mintCredentialsWithFlags, hres, hks, hmint, hlook, hf]

/-- Counterexample for C9 as frozen: with a broker whose keyset lookup
fails after successful minting, the invocation completes successfully
instead of failing. -/
theorem C9_counterexample :
    keysetFailBroker.GetKeysetKeysWithToken "tok" "dev" = .error "boom" ∧
    (mintCredentialsWithFlags keysetFailBroker (envWith "" "") "tok" "env" "" "dev"
        [] 0 false).result = .ok () ∧
    ("⚠️  Warning: Could not retrieve keyset environment variables: boom") ∈
      (mintCredentialsWithFlags keysetFailBroker (envWith "" "") "tok" "env" "" "dev"
        [] 0 false).stderr := by
  refine ⟨rfl, rfl, ?_⟩
  decide

/-- Witness for C9 at concrete inputs. -/
theorem C9_error_propagation_witness :
    (mintCredentialsWithFlags noBroker (envWith "" "") "tok" "env" "" "" [] 0 false).result
        = .error "mint failed" ∧
    (mintCredentialsWithFlags noBroker (envWith "" "") "tok" "env" "" "" [] 0 true).result
        = .error "mint-keys failed" ∧
    (mintCredentialsWithFlags keysetFailBroker (envWith "" "") "tok" "env" "" "dev"
        [] 0 false).result = .ok () := by
  refine ⟨?_, ?_, ?_⟩
  · exact C9_error_propagation.1 noBroker (envWith "" "") "tok" "env" "" "" "tok"
      "mint failed" 0 (by decide) rfl
  · exact C9_error_propagation.2.1 noBroker (envWith "" "") "tok" "env" "" "" "tok"
      "mint-keys failed" [] 0 true (by decide) (Or.inr rfl) rfl
  · exact (C9_error_propagation.2.2 keysetFailBroker (envWith "" "") "tok" "env" "" "dev"
      "tok" "boom" 0
      { AccessKey := "AK", SecretKey := "SK", SessionToken := "ST",
        ExpiresAt := "2025-01-01T00:00:00Z" }
      (by decide) (by decide) rfl rfl).1

/-- C10: configuration loading never aborts the CLI: an absent file
loads the defaults, empty server or token-env fields of a parsed file
are filled with their defaults so every successfully loaded Config has
them non-empty, and a loading error makes the root command fall back to
the default configuration and continue. -/
theorem C10_config_loading :
    (LoadConfig ConfigFile.absent = .ok DefaultConfig) ∧
    (∀ (f : ConfigFile) (c : Config), LoadConfig f = .ok c →
      c.Server ≠ "" ∧ c.TokenEnv ≠ "") ∧
    (∀ c : Config, c.Server = "" → c.TokenEnv = "" →
      LoadConfig (.parsed c) =
        .ok { Server := "http://localhost:3000", IdpName := c.IdpName,
              TokenEnv := "OIDC_TOKEN" }) ∧
    (∀ (f : ConfigFile) (e : String), LoadConfig f = .error e →
      rootInitConfig f = DefaultConfig) ∧
    (∀ f : ConfigFile, (rootInitConfig f).Server ≠ "" ∧
      (rootInitConfig f).TokenEnv ≠ "") := by
  have hok : ∀ (f : ConfigFile) (c : Config), LoadConfig f = .ok c →
      c.Server ≠ "" ∧ c.TokenEnv ≠ "" := by
    intro f c h
    cases f with
    | absent =>
      simp [LoadConfig] at h
      subst h
      exact ⟨by decide, by decide⟩
    | unreadable => simp [LoadConfig] at h
    | malformed => simp [LoadConfig] at h
    | parsed c0 =>
      simp [LoadConfig] at h
      subst h
      constructor
      · by_cases hs : c0.Server = "" <;> simp [hs]
      · by_cases ht : c0.TokenEnv = "" <;> simp [ht]
  refine ⟨rfl, hok, ?_, ?_, ?_⟩
  · intro c hs ht
    simp [LoadConfig, hs, ht]
  · intro f e h
    cases f <;> simp_all [LoadConfig, rootInitConfig]
  · intro f
    cases hl : LoadConfig f with
    | ok c =>
      have := hok f c hl
      simpa [rootInitConfig, hl] using this
    | error e =>
      simp [rootInitConfig, hl]
      exact ⟨by decide, by decide⟩

/-- Witness for C10 at concrete inputs. -/
theorem C10_config_loading_witness :
    (LoadConfig (.parsed { Server := "", IdpName := "x", TokenEnv := "" }) =
      .ok { Server := "http://localhost:3000", IdpName := "x",
            TokenEnv := "OIDC_TOKEN" }) ∧
    rootInitConfig .unreadable = DefaultConfig := by
  constructor
  · exact C10_config_loading.2.2.1 { Server := "", IdpName := "x", TokenEnv := "" }
      rfl rfl
  · exact C10_config_loading.2.2.2.1 .unreadable "failed to read config file" rfl

/-- C8 amended: when no token flag is given the second resolution step
of the mint command consults the fixed OIDC_TOKEN variable, which is
the default value of the token-env configuration field; the configured
token-env name is honoured by Config.GetTokenWithSource, which the mint
command does not call. -/
theorem C8_token_env_resolution :
    (∀ (env : Env) (idpName : String), env "OIDC_TOKEN" ≠ "" →
      (resolveTokenWithLog env "" idpName).1 = some (env "OIDC_TOKEN")) ∧
    (∀ (c : Config) (env : Env), c.TokenEnv ≠ "" → env c.TokenEnv ≠ "" →
      GetTokenWithSource c env = (env c.TokenEnv, c.TokenEnv)) := by
  constructor
  · intro env idpName h
    simp [resolveTokenWithLog, h]
  · intro c env h1 h2
    simp [GetTokenWithSource, h1, h2]

/-- Counterexample for C8 as frozen: with a config whose token-env is a
custom variable name and that variable set and non-empty, the mint
command resolves no token at all (and fails) instead of using the
custom variable. -/
theorem C8_counterexample :
    ({ Server := "http://localhost:3000", IdpName := "",
       TokenEnv := "CUSTOM_TOKEN" } : Config).TokenEnv = "CUSTOM_TOKEN" ∧
    customEnv "CUSTOM_TOKEN" = "tok" ∧
    (resolveTokenWithLog customEnv "" "").1 = none ∧
    (mintCredentialsWithFlags noBroker customEnv "" "env" "" "" [] 0 false).result
      = .error missingTokenMsg := by
  exact ⟨rfl, rfl, by decide, rfl⟩

/-- Witness for C8 at concrete inputs. -/
theorem C8_token_env_resolution_witness :
    (resolveTokenWithLog (envWith "B" "C") "" "").1 = some "B" ∧
    GetTokenWithSource
      { Server := "s", IdpName := "", TokenEnv := "CUSTOM_TOKEN" } customEnv
      = ("tok", "CUSTOM_TOKEN") := by
  constructor
  · have h := C8_token_env_resolution.1 (envWith "B" "C") "" (by decide)
    simpa [envWith] using h
  · have h := C8_token_env_resolution.2
      { Server := "s", IdpName := "", TokenEnv := "CUSTOM_TOKEN" } customEnv
      (by decide) (by decide)
    simpa [customEnv] using h

/-- Helper: a string contains a pattern when its characters split
around the characters of the pattern. -/
theorem containsStr_of_eq (s pre pat post : String)
    (h : s.data = pre.data ++ pat.data ++ post.data) : containsStr s pat = true := by
  simp only [containsStr, decide_eq_true_eq]
  exact ⟨pre.data, post.data, h.symm⟩

/-- C3: every transport-client operation turns a broker response with a
status other than 200 into an error whose message carries the literal
decimal status code and the raw response body, and a 200 status is
required for any non-error result. -/
theorem C3_non200_response_error :
    ∀ (post : String → String → String → Except String (Nat × String))
      (get : String → Except String (Nat × String))
      (serverURL token idpName keyset : String) (keys : List String)
      (duration : Int) (all : Bool) (status : Nat) (body : String),
      (post (serverURL ++ "/credentials/mint") "application/json"
          (mintRequestBody token idpName keyset) = .ok (status, body) →
        status ≠ 200 →
        MintCredentials post serverURL token idpName keyset =
            .error ("server returned error " ++ toString status ++ ": " ++ body) ∧
        containsStr ("server returned error " ++ toString status ++ ": " ++ body)
            (toString status) = true ∧
        containsStr ("server returned error " ++ toString status ++ ": " ++ body)
            body = true) ∧
      (post (serverURL ++ "/credentials/mint-keys") "application/json"
          (mintKeysRequestBody token idpName keys duration all) = .ok (status, body) →
        status ≠ 200 →
        MintKeys post serverURL token idpName keys duration all =
            .error ("server returned error " ++ toString status ++ ": " ++ body)) ∧
      (get (serverURL ++ "/credentials/idp-providers") = .ok (status, body) →
        status ≠ 200 →
        ListIdpProviders get serverURL =
            .error ("server returned error " ++ toString status ++ ": " ++ body)) ∧
      (post (serverURL ++ "/credentials/mint") "application/json"
          (mintRequestBody token idpName keyset) = .ok (status, body) →
        (∃ creds, MintCredentials post serverURL token idpName keyset = .ok creds) →
        status = 200) ∧
      (post (serverURL ++ "/credentials/mint-keys") "application/json"
          (mintKeysRequestBody token idpName keys duration all) = .ok (status, body) →
        (∃ rs, MintKeys post serverURL token idpName keys duration all = .ok rs) →
        status = 200) ∧
      (get (serverURL ++ "/credentials/idp-providers") = .ok (status, body) →
        (∃ ps, ListIdpProviders get serverURL = .ok ps) →
        status = 200) := by
  intro post get serverURL token idpName keyset keys duration all status body
  refine ⟨?_, ?_, ?_, ?_, ?_, ?_⟩
  · intro h hne
    refine ⟨by simp [MintCredentials, h, hne], ?_, ?_⟩
    · exact containsStr_of_eq _ "server returned error " _ (": " ++ body)
        (by simp [String.data_append])
    · exact containsStr_of_eq _ ("server returned error " ++ toString status ++ ": ")
        _ "" (by simp [String.data_append])
  · intro h hne
    simp [MintKeys, h, hne]
  · intro h hne
    simp [ListIdpProviders, h, hne]
  · intro h hok
    obtain ⟨creds, hc⟩ := hok
    by_contra hne
    simp [MintCredentials, h, hne] at hc
  · intro h hok
    obtain ⟨rs, hc⟩ := hok
    by_contra hne
    simp [MintKeys, h, hne] at hc
  · intro h hok
    obtain ⟨ps, hc⟩ := hok
    by_contra hne
    simp [ListIdpProviders, h, hne] at hc

/-- Witness for C3 at concrete inputs. -/
theorem C3_non200_response_error_witness :
    MintCredentials failingPost "http://s" "t" "" "" =
      .error "server returned error 500: Internal Server Error" ∧
    MintKeys failingPost "http://s" "t" "" [] 0 false =
      .error "server returned error 500: Internal Server Error" ∧
    ListIdpProviders failingGet "http://s" =
      .error "server returned error 500: Internal Server Error" := by
  have h := C3_non200_response_error failingPost failingGet "http://s" "t" "" ""
    [] 0 false 500 "Internal Server Error"
  exact ⟨(h.1 rfl (by decide)).1, h.2.1 rfl (by decide), h.2.2.1 rfl (by decide)⟩

/-- Helper: a hexadecimal digit emitted by the encoder decodes to its
value. -/
theorem hexVal_hexDigit : ∀ k : Fin 16, hexVal (hexDigit k.val) = some k.val := by
  decide

/-- Helper: the four-digit decomposition of a value below 65536
reassembles to the value. -/
theorem hex4_reassemble (n : Nat) (h : n < 65536) :
    ((n / 4096 % 16 * 16 + n / 256 % 16) * 16 + n / 16 % 16) * 16 + n % 16 = n := by
  omega

/-- Helper: scanning stops at an unescaped quote. -/
theorem readStr_quote (l : List Char) : readStr ('"' :: l) = some ([], l) := by
  rw [readStr.eq_def]
  simp

/-- Helper: scanning keeps a plain character and continues. -/
theorem readStr_plain (c : Char) (l s r : List Char) (h1 : c ≠ '"') (h2 : c ≠ '\\')
    (hl : readStr l = some (s, r)) : readStr (c :: l) = some (c :: s, r) := by
  rw [readStr.eq_def]
  simp [h1, h2, hl]

/-- Helper: scanning decodes a two-character escape and continues. -/
theorem readStr_short (e u : Char) (l s r : List Char) (hne : e ≠ 'u')
    (he : unescChar e = some u) (hl : readStr l = some (s, r)) :
    readStr ('\\' :: e :: l) = some (u :: s, r) := by
  rw [readStr.eq_def]
  simp [hne, he, hl]

/-- Helper: scanning decodes a four-digit escape and continues. -/
theorem readStr_unicode (a b c2 d : Char) (va vb vc vd : Nat) (l s r : List Char)
    (ha : hexVal a = some va) (hb : hexVal b = some vb) (hc : hexVal c2 = some vc)
    (hd : hexVal d = some vd) (hl : readStr l = some (s, r)) :
    readStr ('\\' :: 'u' :: a :: b :: c2 :: d :: l) =
      some (Char.ofNat (((va * 16 + vb) * 16 + vc) * 16 + vd) :: s, r) := by
  rw [readStr.eq_def]
  simp [ha, hb, hc, hd, hl]

/-- Helper: decoding a JSON string body inverts the encoder escaping:
scanning the escaped characters up to the closing quote returns the
original characters and the trailing input. -/
theorem readStr_escape : ∀ (s rest : List Char),
    readStr (escList s ++ '"' :: rest) = some (s, rest) := by
  intro s
  induction s with
  | nil =>
    intro rest
    simpa [escList] using readStr_quote rest
  | cons c cs ih =>
    intro rest
    rw [escList, List.append_assoc]
    by_cases h1 : c = '"'
    · subst h1
      rw [show escChar '"' = ['\\', '"'] from rfl]
      exact readStr_short '"' '"' _ cs rest (by decide) rfl (ih rest)
    by_cases h2 : c = '\\'
    · subst h2
      rw [show escChar '\\' = ['\\', '\\'] from rfl]
      exact readStr_short '\\' '\\' _ cs rest (by decide) rfl (ih rest)
    by_cases h3 : c = '\n'
    · subst h3
      rw [show escChar '\n' = ['\\', 'n'] from rfl]
      exact readStr_short 'n' '\n' _ cs rest (by decide) rfl (ih rest)
    by_cases h4 : c = '\r'
    · subst h4
      rw [show escChar '\r' = ['\\', 'r'] from rfl]
      exact readStr_short 'r' '\r' _ cs rest (by decide) rfl (ih rest)
    by_cases h5 : c = '\t'
    · subst h5
      rw [show escChar '\t' = ['\\', 't'] from rfl]
      exact readStr_short 't' '\t' _ cs rest (by decide) rfl (ih rest)
    by_cases h6 : c.toNat < 32 ∨ c = '<' ∨ c = '>' ∨ c = '&' ∨
        c.toNat = 8232 ∨ c.toNat = 8233
    · have hb : c.toNat < 65536 := by
        rcases h6 with h | h | h | h | h | h
        · omega
        · subst h; decide
        · subst h; decide
        · subst h; decide
        · omega
        · omega
      have hesc : escChar c =
          ['\\', 'u', hexDigit (c.toNat / 4096 % 16), hexDigit (c.toNat / 256 % 16),
            hexDigit (c.toNat / 16 % 16), hexDigit (c.toNat % 16)] := by
        simp [escChar, h1, h2, h3, h4, h5, h6]
      rw [hesc]
      have hd : ∀ m : Nat, m % 16 < 16 := fun m => Nat.mod_lt m (by omega)
      have hu := readStr_unicode
        (hexDigit (c.toNat / 4096 % 16)) (hexDigit (c.toNat / 256 % 16))
        (hexDigit (c.toNat / 16 % 16)) (hexDigit (c.toNat % 16))
        (c.toNat / 4096 % 16) (c.toNat / 256 % 16) (c.toNat / 16 % 16) (c.toNat % 16)
        (escList cs ++ '"' :: rest) cs rest
        (hexVal_hexDigit ⟨_, hd _⟩) (hexVal_hexDigit ⟨_, hd _⟩)
        (hexVal_hexDigit ⟨_, hd _⟩) (hexVal_hexDigit ⟨_, hd _⟩) (ih rest)
      rw [hex4_reassemble c.toNat hb, Char.ofNat_toNat] at hu
      simpa using hu
    · have hesc : escChar c = [c] := by
        simp [escChar, h1, h2, h3, h4, h5, h6]
      rw [hesc]
      simpa using readStr_plain c _ cs rest h1 h2 (ih rest)

/-- Helper: the indented renderer on a string value. -/
theorem renderI_str (ind : Nat) (v : String) :
    Json.renderI ind (.str v) = jsonStrChars v := by
  rw [Json.renderI]

/-- Helper: joining the rendered member lines and closing the object
yields the member-by-member glue shape. -/
theorem joinSep_pairs : ∀ (ps : List (String × String)) (p : String × String)
    (rest : List Char),
    joinSep [',', '\n'] (pairChars p :: ps.map pairChars) ++ '\n' :: '\x7d' :: rest =
      pairChars p ++ tailGlue rest ps := by
  intro ps
  induction ps with
  | nil =>
    intro p rest
    simp [joinSep, tailGlue]
  | cons q qs ih =>
    intro p rest
    rw [List.map_cons, joinSep, tailGlue]
    have h := ih q rest
    simp only [List.append_assoc, List.cons_append, List.nil_append] at h ⊢
    rw [h]

/-- Helper: the indented rendering of a non-empty flat object of string
fields, followed by trailing input, has the member-by-member glue
shape. -/
theorem renderI_flatObj (p : String × String) (ps : List (String × String))
    (rest : List Char) :
    Json.renderI 0 (.obj ((p :: ps).map fun q => (q.1, Json.str q.2))) ++ rest =
      '\x7b' :: '\n' :: pairChars p ++ tailGlue rest ps := by
  rw [List.map_cons]
  rw [Json.renderI]
  rw [show (List.map
      (fun (q : {x // x ∈ ((p.1, Json.str p.2) ::
          List.map (fun q => (q.1, Json.str q.2)) ps)}) =>
        indentChars (0 + 1) ++ jsonStrChars q.1.1 ++
          ':' :: ' ' :: Json.renderI (0 + 1) q.1.2)
      ((p.1, Json.str p.2) :: List.map (fun q => (q.1, Json.str q.2)) ps).attach) =
      List.map
        (fun (y : String × Json) => indentChars (0 + 1) ++ jsonStrChars y.1 ++
          ':' :: ' ' :: Json.renderI (0 + 1) y.2)
        ((p.1, Json.str p.2) :: List.map (fun q => (q.1, Json.str q.2)) ps) from
    List.attach_map_val ((p.1, Json.str p.2) :: List.map (fun q => (q.1, Json.str q.2)) ps)
      (fun (y : String × Json) => indentChars (0 + 1) ++ jsonStrChars y.1 ++
        ':' :: ' ' :: Json.renderI (0 + 1) y.2)]
  rw [List.map_cons, List.map_map]
  have hone : ∀ q : String × String,
      indentChars (0 + 1) ++ jsonStrChars q.1 ++
        ':' :: ' ' :: Json.renderI (0 + 1) (Json.str q.2) = pairChars q := by
    intro q
    simp [pairChars, renderI_str, indentChars, List.replicate]
  have hmap : (List.map
      ((fun (y : String × Json) => indentChars (0 + 1) ++ jsonStrChars y.1 ++
        ':' :: ' ' :: Json.renderI (0 + 1) y.2) ∘ fun q => (q.1, Json.str q.2)) ps) =
      List.map pairChars ps := by
    apply List.map_congr_left
    intro q _
    simpa using hone q
  rw [hmap, hone p]
  simp only [indentChars, Nat.mul_zero, List.replicate, List.cons_append,
    List.nil_append, List.append_assoc]
  rw [← joinSep_pairs ps p rest]

/-- Helper: whitespace skipping stops at the quote that follows a
newline and the two indent spaces. -/
theorem skipWs_pair (p : String × String) (X : List Char) :
    skipWs ('\n' :: pairChars p ++ X) =
      '"' :: (escList p.1.data ++ '"' :: (':' :: ' ' :: jsonStrChars p.2 ++ X)) := by
  simp [skipWs, pairChars, jsonStrChars, isWs, List.dropWhile]

/-- Helper: the fueled value parser on a quoted string value. -/
theorem parseVal_str (g : Nat) (v : String) (after l : List Char)
    (hsk : skipWs l = '"' :: (escList v.data ++ '"' :: after)) :
    parseVal (g + 1) l = some (.str v, after) := by
  rw [parseVal]
  rw [hsk]
  simp [readStr_escape]

/-- Helper: whitespace skipping stops at the quote of a value after
the single space that follows a colon. -/
theorem skipWs_value (v : String) (X : List Char) :
    skipWs (' ' :: jsonStrChars v ++ X) = '"' :: (escList v.data ++ '"' :: X) := by
  simp [skipWs, jsonStrChars, isWs, List.dropWhile]

/-- Helper: the fueled object-member parser consumes the glue shape of
the remaining members and stops after the closing brace. -/
theorem parseObjItems_glue : ∀ (ps : List (String × String)) (p : String × String)
    (rest : List Char) (fuel : Nat), ps.length + 2 ≤ fuel →
    parseObjItems fuel ('\n' :: pairChars p ++ tailGlue rest ps) =
      some ((p.1, Json.str p.2) :: ps.map (fun q => (q.1, Json.str q.2)), rest) := by
  intro ps
  induction ps with
  | nil =>
    intro p rest fuel hf
    obtain ⟨g, rfl⟩ : ∃ g, fuel = g + 1 := ⟨fuel - 1, by omega⟩
    obtain ⟨h, rfl⟩ : ∃ h, g = h + 1 := ⟨g - 1, by omega⟩
    rw [parseObjItems, skipWs_pair]
    have hcolon : skipWs (':' :: ' ' :: jsonStrChars p.2 ++ tailGlue rest []) =
        ':' :: (' ' :: jsonStrChars p.2 ++ tailGlue rest []) := by
      simp [skipWs, List.dropWhile, isWs]
    have hval := parseVal_str h p.2 (tailGlue rest [])
      (' ' :: jsonStrChars p.2 ++ tailGlue rest []) (skipWs_value p.2 (tailGlue rest []))
    have hclose : skipWs (tailGlue rest []) = '\x7d' :: rest := by
      simp [tailGlue, skipWs, List.dropWhile, isWs]
    simp only [readStr_escape, hcolon, hval, hclose, List.map_nil]
  | cons q qs ih =>
    intro p rest fuel hf
    obtain ⟨g, rfl⟩ : ∃ g, fuel = g + 1 := ⟨fuel - 1, by omega⟩
    obtain ⟨h, rfl⟩ : ∃ h, g = h + 1 := ⟨g - 1, by omega⟩
    rw [parseObjItems, skipWs_pair]
    have hcolon : skipWs (':' :: ' ' :: jsonStrChars p.2 ++ tailGlue rest (q :: qs)) =
        ':' :: (' ' :: jsonStrChars p.2 ++ tailGlue rest (q :: qs)) := by
      simp [skipWs, List.dropWhile, isWs]
    have hval := parseVal_str h p.2 (tailGlue rest (q :: qs))
      (' ' :: jsonStrChars p.2 ++ tailGlue rest (q :: qs))
      (skipWs_value p.2 (tailGlue rest (q :: qs)))
    have hcomma : skipWs (tailGlue rest (q :: qs)) =
        ',' :: ('\n' :: pairChars q ++ tailGlue rest qs) := by
      simp [tailGlue, skipWs, List.dropWhile, isWs]
    have hrec := ih q rest (h + 1) (by simp at hf ⊢; omega)
    simp only [readStr_escape, hcolon, hval, hcomma, hrec, List.map_cons]

/-- Helper: the fueled value parser on the indented rendering of a
non-empty flat object of string fields followed by trailing input. -/
theorem parseVal_flatObj (p : String × String) (ps : List (String × String))
    (rest : List Char) (fuel : Nat) (hf : ps.length + 3 ≤ fuel) :
    parseVal fuel ('\x7b' :: '\n' :: pairChars p ++ tailGlue rest ps) =
      some (.obj ((p.1, Json.str p.2) :: ps.map (fun q => (q.1, Json.str q.2))), rest) := by
  obtain ⟨g, rfl⟩ : ∃ g, fuel = g + 1 := ⟨fuel - 1, by omega⟩
  rw [parseVal]
  have hsk : skipWs ('\x7b' :: '\n' :: pairChars p ++ tailGlue rest ps) =
      '\x7b' :: ('\n' :: pairChars p ++ tailGlue rest ps) := by
    simp [skipWs, List.dropWhile, isWs]
  rw [hsk]
  have hobj := parseObjItems_glue ps p rest g (by omega)
  simp only [List.cons_append, List.append_assoc] at hobj ⊢
  have hsk2 := skipWs_pair p (tailGlue rest ps)
  simp only [List.cons_append, List.append_assoc] at hsk2
  simp [hsk2, hobj]

/-- C6: JSON rendering of a CloudCredentials value round-trips: parsing
the pretty-printed output of the JSON output function and unmarshalling
it yields the original record, including when the session token is the
empty string (in which case its field is omitted and decodes back to
the empty string). -/
theorem C6_json_round_trip :
    ∀ x : CloudCredentials,
      (Json.parse (outputAsJSON x)).bind decodeCreds = some x := by
  intro x
  obtain ⟨a, s, st, e⟩ := x
  by_cases hst : st = ""
  · subst hst
    have hcred : credsToJson ⟨a, s, "", e⟩ =
        .obj ((("accessKey", a) :: [("secretKey", s), ("expiresAt", e)]).map
          fun q => (q.1, Json.str q.2)) := by
      simp [credsToJson]
    have hdata : (outputAsJSON ⟨a, s, "", e⟩).data =
        '\x7b' :: '\n' :: pairChars ("accessKey", a) ++
          tailGlue ['\n'] [("secretKey", s), ("expiresAt", e)] := by
      rw [outputAsJSON, String.data_append, hcred]
      rw [show (String.mk (Json.renderI 0 (.obj ((("accessKey", a) ::
          [("secretKey", s), ("expiresAt", e)]).map fun q => (q.1, Json.str q.2))))).data =
        Json.renderI 0 (.obj ((("accessKey", a) ::
          [("secretKey", s), ("expiresAt", e)]).map fun q => (q.1, Json.str q.2))) from rfl]
      rw [show ("\n" : String).data = ['\n'] from rfl]
      exact renderI_flatObj ("accessKey", a) [("secretKey", s), ("expiresAt", e)] ['\n']
    have hlen : (2 : Nat) + 3 ≤ 2 * (outputAsJSON ⟨a, s, "", e⟩).length + 2 := by
      have h1 : (outputAsJSON ⟨a, s, "", e⟩).length =
          (outputAsJSON ⟨a, s, "", e⟩).data.length := rfl
      rw [h1, hdata]
      simp
      omega
    have hparse := parseVal_flatObj ("accessKey", a) [("secretKey", s), ("expiresAt", e)]
      ['\n'] (2 * (outputAsJSON ⟨a, s, "", e⟩).length + 2) (by simpa using hlen)
    rw [Json.parse, hdata, hparse]
    simp [decodeCreds, jStringField, jLookup, List.find?, skipWs, List.dropWhile, isWs]
  · have hcred : credsToJson ⟨a, s, st, e⟩ =
        .obj ((("accessKey", a) ::
          [("secretKey", s), ("sessionToken", st), ("expiresAt", e)]).map
          fun q => (q.1, Json.str q.2)) := by
      simp [credsToJson, hst]
    have hdata : (outputAsJSON ⟨a, s, st, e⟩).data =
        '\x7b' :: '\n' :: pairChars ("accessKey", a) ++
          tailGlue ['\n'] [("secretKey", s), ("sessionToken", st), ("expiresAt", e)] := by
      rw [outputAsJSON, String.data_append, hcred]
      rw [show (String.mk (Json.renderI 0 (.obj ((("accessKey", a) ::
          [("secretKey", s), ("sessionToken", st), ("expiresAt", e)]).map
            fun q => (q.1, Json.str q.2))))).data =
        Json.renderI 0 (.obj ((("accessKey", a) ::
          [("secretKey", s), ("sessionToken", st), ("expiresAt", e)]).map
            fun q => (q.1, Json.str q.2))) from rfl]
      rw [show ("\n" : String).data = ['\n'] from rfl]
      exact renderI_flatObj ("accessKey", a)
        [("secretKey", s), ("sessionToken", st), ("expiresAt", e)] ['\n']
    have hlen : (3 : Nat) + 3 ≤ 2 * (outputAsJSON ⟨a, s, st, e⟩).length + 2 := by
      have h1 : (outputAsJSON ⟨a, s, st, e⟩).length =
          (outputAsJSON ⟨a, s, st, e⟩).data.length := rfl
      rw [h1, hdata]
      simp
      omega
    have hparse := parseVal_flatObj ("accessKey", a)
      [("secretKey", s), ("sessionToken", st), ("expiresAt", e)]
      ['\n'] (2 * (outputAsJSON ⟨a, s, st, e⟩).length + 2) (by simpa using hlen)
    rw [Json.parse, hdata, hparse]
    simp [decodeCreds, jStringField, jLookup, List.find?, skipWs, List.dropWhile, isWs]

end Voidkey
